import Mathlib

/-!
Shallow embedding of the SIMTight stencil benchmarks
`apps/StencilFast2/StencilFast.cpp` (Tile Cache "Variant A", masked ring
buffer) and `apps/StencilFast3/StencilFast.cpp` (Tile Cache "Variant C",
rotating triple buffer), together with theorems settling the specification
claims about them.

Modelling conventions:
* `SIMTLanes` and `SIMTWarps` come from the platform header `NoCL.h`, which
  is not part of the two translation units; the embedding keeps them as
  explicit parameters `L` (lane count) and `W` (warp-row count).
* C `int` values are modelled as `Int` and the `unsigned` index arithmetic
  as `Nat`.  The benchmark values (at most `5 * 1023 * 1023`) are far below
  `2 ^ 31`, so two's-complement wrap-around never occurs on the executions
  the claims quantify over.  The guards `x < x_size - 1` use `Nat`
  subtraction, which agrees with the C `unsigned` subtraction whenever
  `0 < x_size` (the launch precondition).
* Both kernels are race free within a block for `W = 1` (all cross-warp
  traffic goes through the `__syncthreads` barrier), so one block's
  execution is modelled as a deterministic sequence of phases per
  sliding-window step: prefetch writes, barrier, compute reads, writeback,
  advance.  Shared memory is a total function defaulting to `0` on slots
  the program never wrote.
* Per-lane local variables that every lane updates identically (the
  `left`/`middle`/`right` buffer pointers of Variant C) are modelled as
  block-level pointer fields.
* `NoCL.h` also supplies `shared.array`, the barrier and the coordinate
  registers.  Each `shared.array` call hands out a fresh shared tile and
  the handle assigns like a pointer, as the spec describes in its design
  note on Variant C (relabeling by reassigning ownership, recommending an
  index rotation instead): `left = middle` rebinds the handle, it does not
  copy tile contents.
-/

namespace StencilFast

/-- `MOD_4XSIMTLANES(ind) = (ind & 0x7F)` from `StencilFast2/StencilFast.cpp`
line 14 (comment there: "Mod 128"). -/
def MOD_4XSIMTLANES (ind : Nat) : Nat := ind &&& 0x7F

/-- The linear offset used for every global-memory access in
`StencilFast2/StencilFast.cpp` (`populate_in_buf`, `generate_golden_output`,
`global_ind` in the kernel): `y * y_size + x`. -/
def offsetStencilFast2 (y_size x y : Nat) : Nat := y * y_size + x

/-- The linear offset used for every global-memory access in
`StencilFast3/StencilFast.cpp` (`populate_in_buf`, `generate_golden_output`,
`global_ind` in the kernel): `y * x_size + x`. -/
def offsetStencilFast3 (x_size x y : Nat) : Nat := y * x_size + x

/-- Modelled from the spec: the Grid Addressing contract of section 4.1,
`offset(x, y) = y * row_stride + x` with `row_stride` equal to the grid's
x-extent `x_size`.  Used only to compare the source offsets against the
specified one. -/
def specOffset (x_size x y : Nat) : Nat := y * x_size + x

/-- The input value `populate_in_buf` stores for cell `(x, y)`:
`in_buf[..] = x * y` (both files). -/
def populateVal (x y : Nat) : Int := (x : Int) * (y : Int)

/-- One cell of `generate_golden_output` from `StencilFast3/StencilFast.cpp`:
the value stored at `golden_out[y * x_size + x]`, accumulated in source
order (self, then `x+1`, `x-1`, `y+1`, `y-1`, each under its guard). -/
def goldenCell (x_size y_size : Nat) (inp : Nat → Int) (x y : Nat) : Int :=
  let r0 := inp (offsetStencilFast3 x_size x y)
  let r1 := if x < x_size - 1 then r0 + inp (offsetStencilFast3 x_size (x + 1) y) else r0
  let r2 := if 0 < x then r1 + inp (offsetStencilFast3 x_size (x - 1) y) else r1
  let r3 := if y < y_size - 1 then r2 + inp (offsetStencilFast3 x_size x (y + 1)) else r2
  let r4 := if 0 < y then r3 + inp (offsetStencilFast3 x_size x (y - 1)) else r3
  r4

/-- The x-coordinate read by the tile prefetch of either kernel at
sliding-window step `s` by the lane in column `c`: the source reads
`in_buf[global_ind + SIMTLanes]` where the lane's x-coordinate at step `s`
is `c + s * L`. -/
def prefetchReadX (L s c : Nat) : Nat := c + s * L + L

/-! ### Variant C (`StencilFast3/StencilFast.cpp`, rotating triple buffer)

Shared state of one block: an arena of three physical tile buffers
(`shared.array` is called three times) addressed by a buffer index, plus
the three per-lane pointers `left`/`middle`/`right` into the arena.
`shared.array` returns a pointer, so the source line `left = middle;
middle = right;` reassigns pointers and leaves the `right` pointer
untouched. -/

structure StateC where
  /-- `mem b r c`: buffer `b` (`0`, `1`, `2`), warp row `r`, lane column `c`. -/
  mem : Nat → Nat → Nat → Int
  /-- Arena index the `left` pointer refers to. -/
  pl : Nat
  /-- Arena index the `middle` pointer refers to. -/
  pm : Nat
  /-- Arena index the `right` pointer refers to. -/
  pr : Nat

/-- Block state after the initialisation phase of `SimpleStencil::kernel`
(StencilFast3 lines 73-79): `left[ty][tx] = 0`,
`middle[ty][tx] = in_buf[global_ind]`, pointers at the three fresh
buffers.  Unwritten shared-memory slots are modelled as `0`. -/
def initC (L W xs : Nat) (inp : Nat → Int) (blkY : Nat) : StateC where
  mem := fun b r c =>
    if b = 1 ∧ r < W ∧ c < L then inp (offsetStencilFast3 xs c (blkY * W + r))
    else 0
  pl := 0
  pm := 1
  pr := 2

/-- The prefetch phase of step `s` (`i = s * L`), StencilFast3 line 83:
`if (i + SIMTLanes < x_size) right[ty][tx] = in_buf[global_ind + SIMTLanes]`,
performed by every lane `(r, c)` of the block. -/
def prefetchC (L W xs : Nat) (inp : Nat → Int) (blkY s : Nat) (st : StateC) : StateC :=
  if s * L + L < xs then
    { st with
      mem := fun b r c =>
        if b = st.pr ∧ r < W ∧ c < L then
          inp (offsetStencilFast3 xs (prefetchReadX L s c) (blkY * W + r))
        else st.mem b r c }
  else st

/-- The pointer rotation at the end of each step, StencilFast3 lines
116-118: `left = middle; middle = right;` — the `right` pointer is not
reassigned. -/
def rotateC (st : StateC) : StateC :=
  { st with pl := st.pm, pm := st.pr }

/-- Block state of Variant C at the top of sliding-window step `s`
(before that step's prefetch). -/
def stateC (L W xs : Nat) (inp : Nat → Int) (blkY : Nat) : Nat → StateC
  | 0 => initC L W xs inp blkY
  | s + 1 => rotateC (prefetchC L W xs inp blkY s (stateC L W xs inp blkY s))

/-- The value lane `(ty, tx)` of block `(bx, blkY)` computes and stores to
`out_buf[global_ind]` at step `s` of Variant C (StencilFast3 lines 87-111),
reading the shared state after the step's prefetch and barrier.  The block
x-index `bx` is in scope in the source (`blockIdx.x`) but never read. -/
def computeC (L W xs ys : Nat) (inp : Nat → Int) (bx blkY ty tx s : Nat) : Int :=
  let st := prefetchC L W xs inp blkY s (stateC L W xs inp blkY s)
  let y := blkY * W + ty
  let x := tx + s * L
  let middle := st.mem st.pm
  let left := st.mem st.pl
  let right := st.mem st.pr
  let r0 := middle ty tx
  let r1 := if x < xs - 1 then
      (if tx = L - 1 then r0 + right ty 0 else r0 + middle ty (tx + 1))
    else r0
  let r2 := if 0 < x then
      (if tx = 0 then r1 + left ty (L - 1) else r1 + middle ty (tx - 1))
    else r1
  let r3 := if y < ys - 1 then
      (if ty = W - 1 then r2 + inp (offsetStencilFast3 xs x (y + 1))
       else r2 + middle (ty + 1) tx)
    else r2
  let r4 := if 0 < y then
      (if ty = 0 then r3 + inp (offsetStencilFast3 xs x (y - 1))
       else r3 + middle (ty - 1) tx)
    else r3
  r4

/-! ### Variant A (`StencilFast2/StencilFast.cpp`, masked ring buffer)

One shared tile `c` per block, `SIMTWarps` rows of width `SIMTLanes * 4`,
columns wrapped with `MOD_4XSIMTLANES`.  Note that every global-memory
access of this file uses `offsetStencilFast2`, whose row stride is
`y_size`. -/

/-- Tile contents after the initialisation write of StencilFast2 line 78:
`c[ty][MOD_4XSIMTLANES(x)] = in_buf[global_ind]` by every lane.  A slot is
recovered from its writer by searching the lane range (the mask is
injective on it in the configurations the program runs with); unwritten
slots are `0`. -/
def initA (L W ys : Nat) (inp : Nat → Int) (blkY : Nat) : Nat → Nat → Int :=
  fun r c =>
    if r < W then
      match (List.range L).find? (fun t => MOD_4XSIMTLANES t == c) with
      | some t => inp (offsetStencilFast2 ys t (blkY * W + r))
      | none => 0
    else 0

/-- The prefetch phase of step `s` (`i = s * L`), StencilFast2 line 80:
`if (i + SIMTLanes < x_size)
   c[ty][MOD_4XSIMTLANES(x + SIMTLanes)] = in_buf[global_ind + SIMTLanes]`,
performed by every lane of the block. -/
def prefetchA (L W xs ys : Nat) (inp : Nat → Int) (blkY s : Nat)
    (tile : Nat → Nat → Int) : Nat → Nat → Int :=
  if s * L + L < xs then
    fun r c =>
      if r < W then
        match (List.range L).find? (fun t => MOD_4XSIMTLANES (prefetchReadX L s t) == c) with
        | some t => inp (offsetStencilFast2 ys (prefetchReadX L s t) (blkY * W + r))
        | none => tile r c
      else tile r c
  else tile

/-- Tile state of Variant A at the top of sliding-window step `s`
(before that step's prefetch). -/
def stateA (L W xs ys : Nat) (inp : Nat → Int) (blkY : Nat) : Nat → (Nat → Nat → Int)
  | 0 => initA L W ys inp blkY
  | s + 1 => prefetchA L W xs ys inp blkY s (stateA L W xs ys inp blkY s)

/-- The value lane `(ty, tx)` of block `(bx, blkY)` computes and stores to
`out_buf[global_ind]` at step `s` of Variant A (StencilFast2 lines 84-102),
reading the tile after the step's prefetch and barrier.  The self term is a
direct global read (`in_buf[global_ind]`, line 84).  The block x-index `bx`
is in scope in the source (`blockIdx.x`) but never read. -/
def computeA (L W xs ys : Nat) (inp : Nat → Int) (bx blkY ty tx s : Nat) : Int :=
  let tile := prefetchA L W xs ys inp blkY s (stateA L W xs ys inp blkY s)
  let y := blkY * W + ty
  let x := tx + s * L
  let r0 := inp (offsetStencilFast2 ys x y)
  let r1 := if x < xs - 1 then r0 + tile ty (MOD_4XSIMTLANES (x + 1)) else r0
  let r2 := if 0 < x then r1 + tile ty (MOD_4XSIMTLANES (x - 1)) else r1
  let r3 := if y < ys - 1 then
      (if ty = W - 1 then r2 + inp (offsetStencilFast2 ys x (y + 1))
       else r2 + tile (ty + 1) (MOD_4XSIMTLANES x))
    else r2
  let r4 := if 0 < y then
      (if ty = 0 then r3 + inp (offsetStencilFast2 ys x (y - 1))
       else r3 + tile (ty - 1) (MOD_4XSIMTLANES x))
    else r3
  r4

/-! ### The sliding-window loop structure (common to both kernels)

`for (int i = 0; i < x_size; i += SIMTLanes)` with `x += SIMTLanes;
global_ind += SIMTLanes` at the end of each iteration. -/

/-- The list of `(x, global_ind)` pairs a lane visits in the
sliding-window loop, starting from loop counter `i`.  For `L = 0` the C
loop never terminates; the trace is defined for positive lane counts and
returns `[]` otherwise (all launches have `0 < L`). -/
def loopTrace (L xs i x gi : Nat) : List (Nat × Nat) :=
  if h : i < xs then
    if hL : 0 < L then (x, gi) :: loopTrace L xs (i + L) (x + L) (gi + L)
    else []
  else []
termination_by xs - i
decreasing_by omega

/-! ### The host-side comparator (`check_output`, both files)

The C loop both returns `false` at the first mismatch and prints the
index, the expected (golden) value and the computed value there.  The
return value and the report are modelled by two functions over the same
loop; the function performs no writes, so the buffers are passed as
immutable functions. -/

/-- The comparison loop of `check_output`, from index `i` upwards. -/
def checkFrom (out gold : Nat → Int) (n i : Nat) : Bool :=
  if h : i < n then
    if out i ≠ gold i then false
    else checkFrom out gold n (i + 1)
  else true
termination_by n - i
decreasing_by omega

/-- `check_output(out_buf, golden_buf, buf_size)` from either file. -/
def check_output (out gold : Nat → Int) (n : Nat) : Bool :=
  checkFrom out gold n 0

/-- The report of the `check_output` loop from index `i` upwards: the
first mismatching index together with the expected (`golden_buf`) and
computed (`out_buf`) values printed there, if any. -/
def firstMismatchFrom (out gold : Nat → Int) (n i : Nat) : Option (Nat × Int × Int) :=
  if h : i < n then
    if out i ≠ gold i then some (i, gold i, out i)
    else firstMismatchFrom out gold n (i + 1)
  else none
termination_by n - i
decreasing_by omega

/-- The report of `check_output(out_buf, golden_buf, buf_size)`. -/
def firstMismatch (out gold : Nat → Int) (n : Nat) : Option (Nat × Int × Int) :=
  firstMismatchFrom out gold n 0

/-! ### Output writes and launch geometry

`main` launches with `blockDim = (SIMTLanes, SIMTWarps)`,
`gridDim = (SIMTLanes, buf_size_y / SIMTWarps)` and square buffers
(`buf_size_x = buf_size_y`).  Each lane `(bx, blkY, ty, tx)` writes
`out_buf[global_ind]` once per loop step. -/

/-- The output indices lane `(bx, blkY, ty, tx)` of the Variant A kernel
writes, one per sliding-window step: the `global_ind` components of its
loop trace (initial value `y * y_size + x` per StencilFast2 line 72).
`blockIdx.x` is in scope in the source but never read. -/
def laneWriteIdxsA (L W xs ys bx blkY ty tx : Nat) : List Nat :=
  (loopTrace L xs 0 tx (offsetStencilFast2 ys tx (blkY * W + ty))).map Prod.snd

/-- The `(address, value)` writes lane `(bx, blkY, ty, tx)` of the
Variant C kernel performs on `out_buf`: per sliding-window step, the
`global_ind` of its trace paired with the computed stencil value.
`blockIdx.x` is in scope in the source but never read. -/
def laneWritesC (L W xs ys : Nat) (inp : Nat → Int) (bx blkY ty tx : Nat) :
    List (Nat × Int) :=
  (loopTrace L xs 0 tx (offsetStencilFast3 xs tx (blkY * W + ty))).enum.map
    (fun p => (p.2.2, computeC L W xs ys inp bx blkY ty tx p.1))

/-- The `(address, value)` writes lane `(bx, blkY, ty, tx)` of the
Variant A kernel performs on `out_buf`. -/
def laneWritesA (L W xs ys : Nat) (inp : Nat → Int) (bx blkY ty tx : Nat) :
    List (Nat × Int) :=
  (loopTrace L xs 0 tx (offsetStencilFast2 ys tx (blkY * W + ty))).enum.map
    (fun p => (p.2.2, computeA L W xs ys inp bx blkY ty tx p.1))

/-- Concatenation of `f 0 ++ f 1 ++ ... ++ f (n - 1)`. -/
def concatMapRange (f : Nat → List (Nat × Int)) : Nat → List (Nat × Int)
  | 0 => []
  | n + 1 => concatMapRange f n ++ f n

/-- All output writes of Variant C block `(bx, blkY)`: one lane per
`(ty, tx)` with `ty < blockDim.y = W`, `tx < blockDim.x = L`. -/
def blockWritesC (L W xs ys : Nat) (inp : Nat → Int) (bx blkY : Nat) :
    List (Nat × Int) :=
  concatMapRange (fun ty =>
    concatMapRange (fun tx => laneWritesC L W xs ys inp bx blkY ty tx) L) W

/-- All output writes of Variant A block `(bx, blkY)`. -/
def blockWritesA (L W xs ys : Nat) (inp : Nat → Int) (bx blkY : Nat) :
    List (Nat × Int) :=
  concatMapRange (fun ty =>
    concatMapRange (fun tx => laneWritesA L W xs ys inp bx blkY ty tx) L) W

/-- All output writes of the Variant C blocks with x-index `bx`
(`blkY < gridDim.y = y_size / SIMTWarps`, per `main`). -/
def columnWritesC (L W xs ys : Nat) (inp : Nat → Int) (bx : Nat) :
    List (Nat × Int) :=
  concatMapRange (fun blkY => blockWritesC L W xs ys inp bx blkY) (ys / W)

/-- All output writes of the Variant A blocks with x-index `bx`. -/
def columnWritesA (L W xs ys : Nat) (inp : Nat → Int) (bx : Nat) :
    List (Nat × Int) :=
  concatMapRange (fun blkY => blockWritesA L W xs ys inp bx blkY) (ys / W)

/-- Apply a list of `(address, value)` writes to a buffer, in order. -/
def applyWrites : List (Nat × Int) → (Nat → Int) → Nat → Int
  | [], buf => buf
  | w :: ws, buf => applyWrites ws (fun a => if a = w.1 then w.2 else buf a)

/-- The output buffer after a Variant C launch with grid x-extent `g`
(per `main`, `g = gridDim.x = SIMTLanes`): the writes of the block
columns `bx = 0, ..., g - 1` applied in turn to the initial (zeroed)
buffer. -/
def finalBufC (L W xs ys : Nat) (inp buf0 : Nat → Int) : Nat → (Nat → Int)
  | 0 => buf0
  | g + 1 => applyWrites (columnWritesC L W xs ys inp g)
      (finalBufC L W xs ys inp buf0 g)

/-- The output buffer after a Variant A launch with grid x-extent `g`. -/
def finalBufA (L W xs ys : Nat) (inp buf0 : Nat → Int) : Nat → (Nat → Int)
  | 0 => buf0
  | g + 1 => applyWrites (columnWritesA L W xs ys inp g)
      (finalBufA L W xs ys inp buf0 g)

/-! ### Helper lemmas -/

/-- Characterisation of the loop trace: when `xs = i + k * L` (with
`0 < L`), the loop executes exactly `k` further iterations and the `s`-th
of them visits `(x + s * L, gi + s * L)`. -/
theorem loopTrace_char (L : Nat) (hL : 0 < L) :
    ∀ k xs i x gi : Nat, xs = i + k * L →
      (loopTrace L xs i x gi).length = k ∧
      (∀ s, s < k → (loopTrace L xs i x gi).get? s = some (x + s * L, gi + s * L)) := by
  intro k
  induction k with
  | zero =>
    intro xs i x gi hxs
    rw [loopTrace]
    rw [dif_neg (by omega)]
    simp
  | succ k ih =>
    intro xs i x gi hxs
    have hmul : (k + 1) * L = k * L + L := Nat.succ_mul k L
    have hi : i < xs := by omega
    rw [loopTrace]
    rw [dif_pos hi, dif_pos hL]
    obtain ⟨ihlen, ihget⟩ := ih xs (i + L) (x + L) (gi + L) (by omega)
    refine ⟨by simp [ihlen], ?_⟩
    intro s hs
    match s with
    | 0 => simp
    | s + 1 =>
      have hsm : (s + 1) * L = s * L + L := Nat.succ_mul s L
      rw [List.get?_cons_succ, ihget s (by omega)]
      simp only [Option.some.injEq, Prod.mk.injEq]
      omega

theorem checkFrom_true_iff (out gold : Nat → Int) (n : Nat) :
    ∀ fuel i : Nat, n - i = fuel →
      (checkFrom out gold n i = true ↔ ∀ j, i ≤ j → j < n → out j = gold j) := by
  intro fuel
  induction fuel with
  | zero =>
    intro i hfuel
    rw [checkFrom]
    rw [dif_neg (by omega)]
    constructor
    · intro _ j hij hjn
      omega
    · intro _
      rfl
  | succ fuel ih =>
    intro i hfuel
    have hi : i < n := by omega
    rw [checkFrom]
    rw [dif_pos hi]
    by_cases hm : out i = gold i
    · rw [if_neg (by simpa using hm)]
      rw [ih (i + 1) (by omega)]
      constructor
      · intro hall j hij hjn
        rcases Nat.eq_or_lt_of_le hij with rfl | hlt
        · exact hm
        · exact hall j hlt hjn
      · intro hall j hij hjn
        exact hall j (by omega) hjn
    · rw [if_pos (by simpa using hm)]
      constructor
      · intro hfalse
        exact absurd hfalse (by simp)
      · intro hall
        exact absurd (hall i le_rfl hi) hm

theorem firstMismatchFrom_eq_first (out gold : Nat → Int) (n : Nat) :
    ∀ fuel i j : Nat, n - i = fuel → i ≤ j → j < n → out j ≠ gold j →
      (∀ k, i ≤ k → k < j → out k = gold k) →
      firstMismatchFrom out gold n i = some (j, gold j, out j) := by
  intro fuel
  induction fuel with
  | zero =>
    intro i j hfuel hij hjn hmis hmin
    omega
  | succ fuel ih =>
    intro i j hfuel hij hjn hmis hmin
    have hi : i < n := by omega
    rw [firstMismatchFrom]
    rw [dif_pos hi]
    by_cases hm : out i = gold i
    · rw [if_neg (by simpa using hm)]
      have hij' : i + 1 ≤ j := by
        rcases Nat.eq_or_lt_of_le hij with rfl | hlt
        · exact absurd hm hmis
        · omega
      exact ih (i + 1) j (by omega) hij' hjn hmis (fun k hk1 hk2 => hmin k (by omega) hk2)
    · have hii : i = j := by
        by_contra hne
        exact hm (hmin i le_rfl (by omega))
      subst hii
      rw [if_pos (by simpa using hm)]

theorem laneWriteIdxsA_get? (L W xs ys bx blkY ty tx s : Nat)
    (hL : 0 < L) (hdvd : L ∣ xs) (hs : s < xs / L) :
    (laneWriteIdxsA L W xs ys bx blkY ty tx).get? s =
      some ((blkY * W + ty) * ys + tx + s * L) := by
  unfold laneWriteIdxsA
  rw [List.get?_map]
  rw [(loopTrace_char L hL (xs / L) xs 0 tx (offsetStencilFast2 ys tx (blkY * W + ty))
    (by simp [Nat.div_mul_cancel hdvd])).2 s hs]
  rfl

theorem div_of_decomp (b q r : Nat) (hb : r < b) : (r + q * b) / b = q := by
  rw [Nat.add_mul_div_right _ _ (by omega : 0 < b), Nat.div_eq_of_lt hb]
  omega

theorem mod_of_decomp (b q r : Nat) (hb : r < b) : (r + q * b) % b = r := by
  rw [Nat.add_mul_mod_self_right, Nat.mod_eq_of_lt hb]

theorem decomp_lt (b q r m : Nat) (hb : r < b) (hq : q < m) : r + q * b < m * b := by
  have h2 : (q + 1) * b ≤ m * b := Nat.mul_le_mul_right b hq
  have h3 : (q + 1) * b = q * b + b := Nat.succ_mul q b
  omega

/-- Claim C6: in both variants the tile refresh is guarded by
`i + SIMTLanes < x_size`, so on the final sliding-window step it is
skipped entirely (the shared state is left untouched, not clamped); and
when it does run, under the precondition that `x_size` is a multiple of
the lane count, every prefetch read stays at an x-coordinate strictly
below `x_size`. -/
theorem applyWrites_not_mem (ws : List (Nat × Int)) (buf : Nat → Int) (a : Nat)
    (ha : a ∉ ws.map Prod.fst) : applyWrites ws buf a = buf a := by
  induction ws generalizing buf with
  | nil => rfl
  | cons w ws ih =>
    simp only [List.map_cons, List.mem_cons, not_or] at ha
    rw [applyWrites]
    rw [ih _ ha.2]
    simp [ha.1]

theorem applyWrites_congr (ws : List (Nat × Int)) (b c : Nat → Int)
    (h : ∀ a, a ∉ ws.map Prod.fst → b a = c a) :
    applyWrites ws b = applyWrites ws c := by
  induction ws generalizing b c with
  | nil =>
    funext a
    exact h a (by simp)
  | cons w ws ih =>
    rw [applyWrites, applyWrites]
    apply ih
    intro a ha
    by_cases hw : a = w.1
    · simp [hw]
    · simp only [if_neg hw]
      exact h a (by simp [ha, hw])

theorem applyWrites_idem (ws : List (Nat × Int)) (buf : Nat → Int) :
    applyWrites ws (applyWrites ws buf) = applyWrites ws buf :=
  applyWrites_congr ws _ buf (fun a ha => applyWrites_not_mem ws buf a ha)

theorem finalBufC_stable (L W xs ys : Nat) (inp buf0 : Nat → Int) :
    ∀ g, 1 ≤ g → finalBufC L W xs ys inp buf0 g = finalBufC L W xs ys inp buf0 1 := by
  intro g
  induction g with
  | zero => intro h; exact absurd h (by omega)
  | succ g ih =>
    intro _
    rcases Nat.eq_zero_or_pos g with rfl | hg
    · rfl
    · show applyWrites (columnWritesC L W xs ys inp g)
        (finalBufC L W xs ys inp buf0 g) = _
      have hcol : columnWritesC L W xs ys inp g = columnWritesC L W xs ys inp 0 := rfl
      rw [hcol, ih hg]
      show applyWrites (columnWritesC L W xs ys inp 0)
          (applyWrites (columnWritesC L W xs ys inp 0) buf0) =
        applyWrites (columnWritesC L W xs ys inp 0) buf0
      exact applyWrites_idem _ _

theorem finalBufA_stable (L W xs ys : Nat) (inp buf0 : Nat → Int) :
    ∀ g, 1 ≤ g → finalBufA L W xs ys inp buf0 g = finalBufA L W xs ys inp buf0 1 := by
  intro g
  induction g with
  | zero => intro h; exact absurd h (by omega)
  | succ g ih =>
    intro _
    rcases Nat.eq_zero_or_pos g with rfl | hg
    · rfl
    · show applyWrites (columnWritesA L W xs ys inp g)
        (finalBufA L W xs ys inp buf0 g) = _
      have hcol : columnWritesA L W xs ys inp g = columnWritesA L W xs ys inp 0 := rfl
      rw [hcol, ih hg]
      show applyWrites (columnWritesA L W xs ys inp 0)
          (applyWrites (columnWritesA L W xs ys inp 0) buf0) =
        applyWrites (columnWritesA L W xs ys inp 0) buf0
      exact applyWrites_idem _ _

theorem C6_final_step_prefetch_skipped_and_inbounds :
    (∀ (L W xs ys : Nat) (inp : Nat → Int) (blkY s : Nat) (stc : StateC)
        (tile : Nat → Nat → Int),
        xs ≤ s * L + L →
        prefetchC L W xs inp blkY s stc = stc ∧
        prefetchA L W xs ys inp blkY s tile = tile) ∧
    (∀ L xs s tx : Nat, L ∣ xs → s * L + L < xs → tx < L →
        prefetchReadX L s tx < xs) := by
  constructor
  · intro L W xs ys inp blkY s stc tile hskip
    constructor
    · unfold prefetchC
      rw [if_neg (by omega)]
    · unfold prefetchA
      rw [if_neg (by omega)]
  · intro L xs s tx hdvd hlt htx
    obtain ⟨k, hk⟩ := hdvd
    have h1 : L * (s + 1) < L * k := by
      have he : L * (s + 1) = s * L + L := by ring
      omega
    have h2 : s + 1 < k := Nat.lt_of_mul_lt_mul_left h1
    have h3 : L * (s + 2) ≤ L * k := Nat.mul_le_mul_left L h2
    have he2 : L * (s + 2) = s * L + L + L := by ring
    unfold prefetchReadX
    omega

/-- Witness for C6 at a concrete launch: `L = 2`, `x_size = 4`; the step
`s = 1` satisfies `s * L + L ≥ x_size` and leaves the Variant C state
untouched, and the in-range prefetch read of step `s = 0`, lane `1`
addresses x-coordinate `3 < 4`. -/
theorem C6_witness :
    prefetchC 2 1 4 (fun i => (i : Int)) 0 1 (initC 2 1 4 (fun i => (i : Int)) 0) =
      initC 2 1 4 (fun i => (i : Int)) 0 ∧
    prefetchReadX 2 0 1 < 4 :=
  ⟨(C6_final_step_prefetch_skipped_and_inbounds.1 2 1 4 4 (fun i => (i : Int)) 0 1
      (initC 2 1 4 (fun i => (i : Int)) 0) (fun _ _ => 0) (by decide)).1,
    C6_final_step_prefetch_skipped_and_inbounds.2 2 4 0 1 (by decide) (by decide) (by decide)⟩

/-- Claim C8: each lane's x-coordinate and global offset advance by the
lane count every step and the loop stops at `x_size`; under the
precondition (`x_size` a positive multiple of the lane count) each lane
executes exactly `x_size / laneCount` steps, the `s`-th visiting
x-coordinate `threadIdx.x + s * laneCount`. -/
theorem C8_lane_visits_exactly_xs_div_L_steps (L xs tx gi : Nat)
    (hL : 0 < L) (hdvd : L ∣ xs) (hxs : 0 < xs) :
    (loopTrace L xs 0 tx gi).length = xs / L ∧
    (∀ s, s < xs / L →
      (loopTrace L xs 0 tx gi).get? s = some (tx + s * L, gi + s * L)) :=
  loopTrace_char L hL (xs / L) xs 0 tx gi (by simp [Nat.div_mul_cancel hdvd])

/-- Witness for C8 at `L = 2`, `x_size = 4`, `threadIdx.x = 1`,
initial offset `5`: two steps, visiting x-coordinates `1` and `3`. -/
theorem C8_witness :
    (loopTrace 2 4 0 1 5).length = 4 / 2 ∧
    (∀ s, s < 4 / 2 → (loopTrace 2 4 0 1 5).get? s = some (1 + s * 2, 5 + s * 2)) :=
  C8_lane_visits_exactly_xs_div_L_steps 2 4 1 5 (by decide) (by decide) (by decide)

/-- Claim C9: `check_output(out_buf, golden_buf, buf_size)` returns `true`
iff the buffers agree on every index below `buf_size`; when an index
mismatches, the smallest mismatching index is reported together with the
expected (golden) and computed (out) values, and `false` is returned.
The function only reads the buffers (modelled pure). -/
theorem C9_check_output_first_mismatch :
    ∀ (out gold : Nat → Int) (n : Nat),
      (check_output out gold n = true ↔ ∀ i, i < n → out i = gold i) ∧
      (∀ i, i < n → out i ≠ gold i → (∀ j, j < i → out j = gold j) →
        firstMismatch out gold n = some (i, gold i, out i) ∧
        check_output out gold n = false) := by
  intro out gold n
  have hiff := checkFrom_true_iff out gold n (n - 0) 0 rfl
  constructor
  · rw [check_output, hiff]
    constructor
    · intro h i hin
      exact h i (Nat.zero_le i) hin
    · intro h i _ hin
      exact h i hin
  · intro i hin hmis hmin
    refine ⟨firstMismatchFrom_eq_first out gold n (n - 0) 0 i rfl (Nat.zero_le i) hin hmis
        (fun k _ hk => hmin k hk), ?_⟩
    rw [check_output]
    rcases Bool.eq_false_or_eq_true (checkFrom out gold n 0) with ht | hf
    · exact absurd ((hiff.mp ht) i (Nat.zero_le i) hin) hmis
    · exact hf

/-- Witness for C9: buffers of size `3` differing first at index `1`
(expected `1`, computed `0`). -/
theorem C9_witness :
    check_output (fun _ => 0) (fun j => if j = 1 then 1 else 0) 3 = false ∧
    firstMismatch (fun _ => 0) (fun j => if j = 1 then 1 else 0) 3 = some (1, 1, 0) := by
  have h := (C9_check_output_first_mismatch (fun _ => 0)
      (fun j => if j = 1 then 1 else 0) 3).2 1 (by decide) (by decide)
      (fun j hj => by interval_cases j <;> decide)
  exact ⟨h.2, h.1⟩

/-- Claim C5 counterexample: `main` replicates the blocks `gridDim.x =
SIMTLanes` times in x, and the kernel never reads `blockIdx.x`, so a cell
is written by one lane of every x-replicated block, not by exactly one
lane of the launch.  Concretely at `L = 2`, `W = 1`, `x_size = y_size = 2`:
cell `0` is written by lane `(bx, blkY, ty, tx) = (0, 0, 0, 0)` and by the
distinct lane `(1, 0, 0, 0)`, both with block x-index below
`gridDim.x = L = 2`. -/
theorem C5_counterexample_two_lanes_write_cell_0 :
    (0 : Nat) ∈ laneWriteIdxsA 2 1 2 2 0 0 0 0 ∧
    (0 : Nat) ∈ laneWriteIdxsA 2 1 2 2 1 0 0 0 ∧
    ((0, 0, 0, 0) : Nat × Nat × Nat × Nat) ≠ (1, 0, 0, 0) ∧
    (0 : Nat) < 2 ∧ (1 : Nat) < 2 := by
  refine ⟨?_, ?_, by decide, by decide, by decide⟩ <;>
  · unfold laneWriteIdxsA
    rw [loopTrace]
    rw [dif_pos (by norm_num), dif_pos (by norm_num)]
    rw [loopTrace]
    rw [dif_neg (by norm_num)]
    simp [offsetStencilFast2]

/-- Claim C5 (amended): with `main`'s launch geometry (square grid,
`x_size` a positive multiple of the lane count and `y_size` of the
warp-row count), every output cell is written exactly once per block
x-index: for each fixed `bx` there is exactly one `(blkY, ty, tx, s)`
with `blkY < gridDim.y = y_size / W`, `ty < W`, `tx < L`,
`s < x_size / L` whose step-`s` write hits the cell.  Across the whole
launch each cell is therefore written `gridDim.x = SIMTLanes` times
(once per `bx`), not exactly once. -/
theorem C5_cell_written_once_per_block_x (L W xs ys n bx : Nat)
    (hL : 0 < L) (hW : 0 < W) (hdx : L ∣ xs) (hdy : W ∣ ys)
    (hsq : ys = xs) (hn : n < xs * ys) :
    ∃! q : Nat × Nat × Nat × Nat,
      q.1 < ys / W ∧ q.2.1 < W ∧ q.2.2.1 < L ∧ q.2.2.2 < xs / L ∧
      (laneWriteIdxsA L W xs ys bx q.1 q.2.1 q.2.2.1).get? q.2.2.2 = some n := by
  subst hsq
  have hxs : 0 < ys := by
    rcases Nat.eq_zero_or_pos ys with h0 | h
    · rw [h0] at hn
      simp at hn
    · exact h
  have hy : n / ys < ys := (Nat.div_lt_iff_lt_mul hxs).mpr hn
  have hx : n % ys < ys := Nat.mod_lt n hxs
  refine ⟨(n / ys / W, n / ys % W, n % ys % L, n % ys / L),
    ⟨Nat.div_lt_div_of_lt_of_dvd hdy hy, Nat.mod_lt _ hW, Nat.mod_lt _ hL,
     Nat.div_lt_div_of_lt_of_dvd hdx hx, ?_⟩, ?_⟩
  · rw [laneWriteIdxsA_get? L W ys ys bx _ _ _ _ hL hdx (Nat.div_lt_div_of_lt_of_dvd hdx hx)]
    have h1 : n / ys / W * W + n / ys % W = n / ys := by
      have hd := Nat.div_add_mod (n / ys) W
      have hc : n / ys / W * W = W * (n / ys / W) := Nat.mul_comm _ _
      omega
    have h2 : n % ys % L + n % ys / L * L = n % ys := by
      have hd := Nat.div_add_mod (n % ys) L
      have hc : n % ys / L * L = L * (n % ys / L) := Nat.mul_comm _ _
      omega
    have h3 : n / ys * ys + n % ys = n := by
      have hd := Nat.div_add_mod n ys
      have hc : n / ys * ys = ys * (n / ys) := Nat.mul_comm _ _
      omega
    rw [Nat.add_assoc, h1, h2, h3]
  · rintro ⟨B, T, X, S⟩ ⟨hB, hT, hX, hS, hval⟩
    rw [laneWriteIdxsA_get? L W ys ys bx B T X S hL hdx hS] at hval
    have heq : (B * W + T) * ys + X + S * L = n := Option.some.inj hval
    have hyq : B * W + T < ys := by
      have h4 : T + B * W < ys / W * W := decomp_lt W B T (ys / W) hT hB
      have h5 : ys / W * W = ys := Nat.div_mul_cancel hdy
      omega
    have hxq : X + S * L < ys := by
      have h4 : X + S * L < ys / L * L := decomp_lt L S X (ys / L) hX hS
      have h5 : ys / L * L = ys := Nat.div_mul_cancel hdx
      omega
    have hdivn : n / ys = B * W + T := by
      rw [← heq, Nat.add_assoc, Nat.add_comm ((B * W + T) * ys) (X + S * L)]
      exact div_of_decomp ys (B * W + T) (X + S * L) hxq
    have hmodn : n % ys = X + S * L := by
      rw [← heq, Nat.add_assoc, Nat.add_comm ((B * W + T) * ys) (X + S * L)]
      exact mod_of_decomp ys (B * W + T) (X + S * L) hxq
    have hBdiv : n / ys / W = B := by
      rw [hdivn, Nat.add_comm (B * W) T]
      exact div_of_decomp W B T hT
    have hTmod : n / ys % W = T := by
      rw [hdivn, Nat.add_comm (B * W) T]
      exact mod_of_decomp W B T hT
    have hXmod : n % ys % L = X := by
      rw [hmodn]
      exact mod_of_decomp L S X hX
    have hSdiv : n % ys / L = S := by
      rw [hmodn]
      exact div_of_decomp L S X hX
    simp only [Prod.mk.injEq]
    exact ⟨hBdiv.symm, hTmod.symm, hXmod.symm, hSdiv.symm⟩

/-- Witness for the amended C5 at `L = 2`, `W = 1`, `x_size = y_size = 2`,
cell `3`, block x-index `0`. -/
theorem C5_witness :
    ∃! q : Nat × Nat × Nat × Nat,
      q.1 < 2 / 1 ∧ q.2.1 < 1 ∧ q.2.2.1 < 2 ∧ q.2.2.2 < 2 / 2 ∧
      (laneWriteIdxsA 2 1 2 2 0 q.1 q.2.1 q.2.2.1).get? q.2.2.2 = some 3 :=
  C5_cell_written_once_per_block_x 2 1 2 2 3 0 (by decide) (by decide)
    (by decide) (by decide) (by decide) (by decide)

/-! ### Claim theorems -/

/-- Claim C1: the specification demands
`output[x,y] = input[x,y] + input[x+1,y] + input[x-1,y] + input[x,y+1] +
input[x,y-1]` with out-of-range terms omitted, for every launch meeting
the configuration precondition.  Evaluation of the embedded Variant C
kernel at the failing launch `L = 32`, `W = 1`, `x_size = 96`,
`y_size = 1`, `input[i] = i`: the lane owning cell `(32, 0)` (lane
`tx = 0`, step `1`) writes `160` to `out_buf[32]`, while the required
edge-suppressed sum — the program's own `generate_golden_output` — is
`32 + 33 + 31 = 96`.  The pointer rotation `left = middle; middle = right`
leaves `right` aliased to `middle`, so step 1's prefetch overwrites the
current window with the next one. -/
theorem C1_variantC_kernel_deviates_from_golden :
    computeC 32 1 96 1 (fun i => (i : Int)) 0 0 0 0 1 = 160 ∧
    goldenCell 96 1 (fun i => (i : Int)) 32 0 = 96 ∧
    offsetStencilFast3 96 (0 + 1 * 32) 0 = 32 := by
  refine ⟨by decide, by decide, by decide⟩

/-- Claim C2: Variants A and C must produce bit-identical output buffers on
every input meeting the configuration precondition.  At the launch
`L = 32`, `W = 1`, `x_size = 96`, `y_size = 1`, `input[i] = i`, both
variants write cell `(32, 0)` at the same linear offset `32`, but
Variant A stores `96` and Variant C stores `160`. -/
theorem C2_variantA_variantC_outputs_differ :
    computeA 32 1 96 1 (fun i => (i : Int)) 0 0 0 0 1 = 96 ∧
    computeC 32 1 96 1 (fun i => (i : Int)) 0 0 0 0 1 = 160 ∧
    offsetStencilFast2 1 (0 + 1 * 32) 0 = offsetStencilFast3 96 (0 + 1 * 32) 0 ∧
    computeA 32 1 96 1 (fun i => (i : Int)) 0 0 0 0 1 ≠
      computeC 32 1 96 1 (fun i => (i : Int)) 0 0 0 0 1 := by
  refine ⟨by decide, by decide, by decide, by decide⟩

/-- Claim C3: the claimed rotation invariant — three distinct buffers with
a fresh `right` distinct from the new `middle`, and `middle[wy][lx]`
holding the lane's current input value when it is read.  At the launch
`L = 32`, `W = 1`, `x_size = 96`, `y_size = 1`, `input[i] = i`, after the
first rotation the `middle` and `right` pointers coincide (both buffer
`2`), and at step 1 the compute-phase read `middle[0][0]` yields `64`
(the next window) instead of the lane's current input value `32`. -/
theorem C3_rotation_leaves_middle_right_aliased :
    (stateC 32 1 96 (fun i => (i : Int)) 0 1).pm =
      (stateC 32 1 96 (fun i => (i : Int)) 0 1).pr ∧
    (let st := prefetchC 32 1 96 (fun i => (i : Int)) 0 1
        (stateC 32 1 96 (fun i => (i : Int)) 0 1)
     st.mem st.pm 0 0 = 64) ∧
    (fun i => (i : Int)) (offsetStencilFast3 96 (0 + 1 * 32) 0) = 32 := by
  refine ⟨by decide, by decide, by decide⟩

/-- Claim C4: every global-memory access must use the offset
`y * row_stride + x` with `row_stride = x_size`.  StencilFast3 does;
StencilFast2 uses `y * y_size + x` everywhere, which deviates on
non-square grids: on a grid with `x_size = 4`, `y_size = 2`, the cell
`(x, y) = (0, 1)` is addressed at offset `2` by the StencilFast2 code but
at offset `4` by the specified contract. -/
theorem C4_stencilfast2_row_stride_is_y_size :
    (∀ xs x y, offsetStencilFast3 xs x y = specOffset xs x y) ∧
    offsetStencilFast2 2 0 1 = 2 ∧
    specOffset 4 0 1 = 4 ∧
    offsetStencilFast2 2 0 1 ≠ specOffset 4 0 1 := by
  refine ⟨fun xs x y => rfl, by decide, by decide, by decide⟩

/-- Claim C7: the Variant A wrap `MOD_4XSIMTLANES(ind) = ind & 0x7F`
computes `ind mod (4 * SIMTLanes)` for every `ind` exactly when
`SIMTLanes = 32`. -/
theorem C7_mask_is_mod_iff_lanes_eq_32 (L : Nat) :
    (∀ ind : Nat, MOD_4XSIMTLANES ind = ind % (4 * L)) ↔ L = 32 := by
  constructor
  · intro h
    have h127 := h 127
    have h128 := h 128
    have e127 : MOD_4XSIMTLANES 127 = 127 := by decide
    have e128 : MOD_4XSIMTLANES 128 = 0 := by decide
    rw [e127] at h127
    rw [e128] at h128
    rcases Nat.eq_zero_or_pos L with h0 | hpos
    · subst h0
      simp at h128
    · have hm : 127 % (4 * L) < 4 * L := Nat.mod_lt 127 (by omega)
      have hdvd : (4 * L) ∣ 128 := Nat.dvd_of_mod_eq_zero h128.symm
      have hle : 4 * L ≤ 128 := Nat.le_of_dvd (by norm_num) hdvd
      omega
  · rintro rfl
    intro ind
    exact Nat.and_pow_two_sub_one_eq_mod ind 7

/-- Claim C10: neither kernel body reads `blockIdx.x` — two executions of
a lane agreeing on everything but the block x-index produce identical
write lists (addresses and values) — and consequently a launch with the
redundant grid x-extent `g ≥ 1` (per `main`, `g = SIMTLanes`) leaves the
same final output buffer as a launch with grid x-extent `1`. -/
theorem C10_kernel_never_reads_block_x_index :
    (∀ (L W xs ys : Nat) (inp : Nat → Int) (bx bx' blkY ty tx : Nat),
        laneWritesC L W xs ys inp bx blkY ty tx =
          laneWritesC L W xs ys inp bx' blkY ty tx ∧
        laneWritesA L W xs ys inp bx blkY ty tx =
          laneWritesA L W xs ys inp bx' blkY ty tx) ∧
    (∀ (L W xs ys : Nat) (inp buf0 : Nat → Int) (g : Nat), 1 ≤ g →
        finalBufC L W xs ys inp buf0 g = finalBufC L W xs ys inp buf0 1 ∧
        finalBufA L W xs ys inp buf0 g = finalBufA L W xs ys inp buf0 1) :=
  ⟨fun _ _ _ _ _ _ _ _ _ _ => ⟨rfl, rfl⟩,
   fun L W xs ys inp buf0 g hg =>
    ⟨finalBufC_stable L W xs ys inp buf0 g hg,
     finalBufA_stable L W xs ys inp buf0 g hg⟩⟩

/-- Witness for C10: at `L = W = x_size = y_size = 1`, a launch with grid
x-extent `2` produces the same buffer as one with grid x-extent `1`. -/
theorem C10_witness :
    finalBufC 1 1 1 1 (fun _ => 0) (fun _ => 0) 2 =
      finalBufC 1 1 1 1 (fun _ => 0) (fun _ => 0) 1 ∧
    finalBufA 1 1 1 1 (fun _ => 0) (fun _ => 0) 2 =
      finalBufA 1 1 1 1 (fun _ => 0) (fun _ => 0) 1 :=
  C10_kernel_never_reads_block_x_index.2 1 1 1 1 (fun _ => 0) (fun _ => 0) 2
    (by decide)

end StencilFast
